import Mathlib

/-!
# Verification of the meta-refine chunking-and-finding-extraction pipeline

Shallow embedding of `meta_refine_pkg/core/analyzer.py` (class `CodeAnalyzer`
and `AnalysisResult`) together with the parts of
`meta_refine_pkg/core/config.py` (class `AnalysisConfig`) that the analyzer
reads.

Modelling conventions:
* Python strings are Lean `String`s; character-level work is done on
  `String.data : List Char`.  The regular expressions used by the parser are
  fixed literal patterns, so each one is embedded as an explicit scanning
  function with the same matching semantics (leftmost match position, greedy
  `\s*`, lazy `.+?` against a fixed set of stop markers, word boundaries for
  the legacy severity scan).  The patterns are ASCII, and the embedding treats
  the `\s`, `\d`, `\w`, `[A-Z]` character classes as their ASCII versions.
* Python ints are `Int` (line numbers can leave `Nat` range through the
  overlap arithmetic of `_chunk_by_lines`); sizes and configuration knobs that
  are positive counts are `Nat`.
* `time.time()` values (the `timestamp` fields of issues and results) are not
  modelled: no behaviour covered here reads them.  The elapsed
  `analysis_time` is modelled as an explicit argument `t` supplied by the
  caller, since only its rebinding matters to the claims, never its value.
* The in-memory dict `self.cache` is modelled as an association list with
  front insertion and first-match lookup, which has the same observable
  lookup/overwrite behaviour.  In-place mutation of a cached
  `AnalysisResult` (the cache-hit path rebinds `file_path` and
  `analysis_time` on the shared object) is embedded by explicit state
  passing: the hit branch stores the rebound record back under the same key,
  so the returned value and the cache entry stay the same value.
* `hashlib.sha256(...).hexdigest()` in `_generate_cache_key` is modelled as
  the identity on its pre-image: the claims only depend on equal inputs
  producing equal keys, which holds for both.
* `ast.parse` / `ast.walk` are Python standard library collaborators, not
  code of this repository.  Their outcome is abstracted as an argument
  `astDecls : Option (List (Nat × Nat))`: `none` models a `SyntaxError`,
  `some decls` models the `(lineno, end_lineno)` spans of the
  `ClassDef`/`FunctionDef`/`AsyncFunctionDef` nodes that `ast.walk` yields,
  in walk order.
* File reading, logging, and the defensive `try/except` wrappers around
  whole-file analysis are outside the modelled behaviour: `analyzeFile`
  receives the decoded source text directly.
-/

namespace MetaRefine

/-! ## Character and string helpers (ASCII semantics of the patterns used) -/

/-- ASCII whitespace as matched by the regex class `\s` and stripped by
Python `str.strip()` on the inputs considered here. -/
def isPySpace (c : Char) : Bool :=
  c = ' ' || c = '\t' || c = '\n' || c = '\r' || c = '\x0b' || c = '\x0c'

/-- Python `str.strip()`. -/
def pyStrip (cs : List Char) : List Char :=
  ((cs.dropWhile isPySpace).reverse.dropWhile isPySpace).reverse

/-- Python `str.strip()` at `String` level. -/
def stripStr (s : String) : String := String.mk (pyStrip s.data)

/-- Case-insensitive test that `pat` (given in lowercase) begins `s`. -/
def ciStarts : List Char → List Char → Bool
  | [], _ => true
  | _ :: _, [] => false
  | p :: ps, c :: cs => p == c.toLower && ciStarts ps cs

/-- Substring containment on character lists (`needle in haystack`). -/
def containsSub (needle : List Char) : List Char → Bool
  | [] => needle.isEmpty
  | c :: t => needle.isPrefixOf (c :: t) || containsSub needle t

/-- Python `str.lower()` (ASCII). -/
def lowerCL (cs : List Char) : List Char := cs.map Char.toLower

/-- Value of a string of decimal digits, as computed by Python `int()`. -/
def natOfDigits (ds : List Char) : Nat :=
  ds.foldl (fun n c => n * 10 + (c.toNat - 48)) 0

/-- Split on the newline character, Python `str.split('\n')`. -/
def splitCL (cs : List Char) : List (List Char) :=
  cs.foldr
    (fun c acc =>
      if c = '\n' then [] :: acc
      else
        match acc with
        | h :: t => (c :: h) :: t
        | [] => [[c]])
    [[]]

/-- Python `code.split('\n')` at `String` level. -/
def splitLines (s : String) : List String := (splitCL s.data).map String.mk

/-- Join with newlines, Python `'\n'.join(...)` on character lists. -/
def joinCL : List (List Char) → List Char
  | [] => []
  | [x] => x
  | x :: y :: t => x ++ '\n' :: joinCL (y :: t)

/-- Python `'\n'.join(lines)` at `String` level. -/
def joinLines (lines : List String) : String :=
  String.mk (joinCL (lines.map String.data))

/-- Apply a positional matcher at every suffix, leftmost success first:
the search behaviour of `re.search`. -/
def scanSuffixes (f : List Char → Option β) : List Char → Option β
  | [] => none
  | c :: t =>
    match f (c :: t) with
    | some r => some r
    | none => scanSuffixes f t

/-! ## Finding data model

`AnalysisResult.add_issue` and `_parse_issue_block` build issue dicts with
the keys `type`, `severity`, `line`, `description`, `suggestion`, `impact`
(plus an unread `timestamp`, not modelled). -/

/-- One finding, as the dicts appended to `AnalysisResult.issues`. -/
structure Issue where
  type : String
  severity : String
  line : Int
  description : String
  suggestion : String
  impact : String
deriving DecidableEq, Repr

/-! ## The structured parser (`_parse_issue_block`) -/

/-- The pattern `SEVERITY:` (stored lowercase, matched case-insensitively). -/
def sevPat : List Char := "severity:".data

/-- The pattern `LINE:`. -/
def lineColonPat : List Char := "line:".data

/-- The pattern `ISSUE:`. -/
def issueMarkerPat : List Char := "issue:".data

/-- The pattern `IMPACT:`. -/
def impactPat : List Char := "impact:".data

/-- The pattern `SOLUTION:`. -/
def solutionPat : List Char := "solution:".data

/-- Match of the regex `SEVERITY:\s*([A-Z]+)` (IGNORECASE) anchored at the
start of `s`; returns the captured token uppercased, as
`severity_match.group(1).upper()` does. -/
def trySeverityAt (s : List Char) : Option (List Char) :=
  if ciStarts sevPat s then
    let tok := ((s.drop sevPat.length).dropWhile isPySpace).takeWhile Char.isAlpha
    if tok.isEmpty then none else some (tok.map Char.toUpper)
  else none

/-- `re.search(r'SEVERITY:\s*([A-Z]+)', block, re.IGNORECASE)`. -/
def scanSeverity (s : List Char) : Option (List Char) :=
  scanSuffixes trySeverityAt s

/-- Match of the regex `LINE:\s*(\d+)` (IGNORECASE) anchored at the start
of `s`; returns the captured number as `int(...)` does. -/
def tryLineColonAt (s : List Char) : Option Nat :=
  if ciStarts lineColonPat s then
    let ds := ((s.drop lineColonPat.length).dropWhile isPySpace).takeWhile Char.isDigit
    if ds.isEmpty then none else some (natOfDigits ds)
  else none

/-- `re.search(r'LINE:\s*(\d+)', block, re.IGNORECASE)`. -/
def scanLineColon (s : List Char) : Option Nat :=
  scanSuffixes tryLineColonAt s

/-- Stop positions of the lazy group in `(.+?)(?=P1|P2|$)` under `re.DOTALL`
without `re.MULTILINE`: a position where one of the lookahead markers starts,
the end of the string, or the position just before a terminal newline
(the `$` of Python `re` without MULTILINE). -/
def isStopAt (pats : List (List Char)) (body : List Char) (m : Nat) : Bool :=
  pats.any (fun p => ciStarts p (body.drop m)) ||
  m == body.length || body.drop m == ['\n']

/-- Walk of candidate stop positions `k, k+1, ...` with explicit fuel. -/
def firstStopGo (pats : List (List Char)) (body : List Char) :
    Nat → Nat → Option Nat
  | 0, _ => none
  | fuel + 1, k =>
    if isStopAt pats body k then some k
    else firstStopGo pats body fuel (k + 1)

/-- Smallest stop position in `k, ..., body.length` (the lazy `.+?` takes
the shortest text; no stop can lie beyond the end of the body). -/
def firstStopFrom (pats : List (List Char)) (body : List Char) (k : Nat) :
    Option Nat :=
  firstStopGo pats body (body.length + 1 - k) k

/-- Capture of `(.+?)` when `\s*` has consumed exactly `k` characters:
the shortest non-empty text from position `k` to a stop position. -/
def tryFieldAtK (pats : List (List Char)) (body : List Char) (k : Nat) :
    Option (List Char) :=
  match firstStopFrom pats body (k + 1) with
  | some m => some ((body.drop k).take (m - k))
  | none => none

/-- Backtracking of the greedy `\s*` before the lazy group: try the longest
whitespace run first, then shorter ones. -/
def tryFieldFromK (pats : List (List Char)) (body : List Char) :
    Nat → Option (List Char)
  | 0 => tryFieldAtK pats body 0
  | k + 1 =>
    match tryFieldAtK pats body (k + 1) with
    | some r => some r
    | none => tryFieldFromK pats body k

/-- Match of `\s*(.+?)(?=…|$)` against `body` (the text following a field
marker), with `re.IGNORECASE | re.DOTALL` semantics. -/
def extractField (pats : List (List Char)) (body : List Char) :
    Option (List Char) :=
  tryFieldFromK pats body (body.takeWhile isPySpace).length

/-- Match of `MARKER:\s*(.+?)(?=…|$)` anchored at the start of `s`. -/
def tryFieldAt (marker : List Char) (pats : List (List Char))
    (s : List Char) : Option (List Char) :=
  if ciStarts marker s then extractField pats (s.drop marker.length) else none

/-- `re.search` for a field regex such as
`r'ISSUE:\s*(.+?)(?=IMPACT:|SOLUTION:|$)'`. -/
def scanField (marker : List Char) (pats : List (List Char))
    (s : List Char) : Option (List Char) :=
  scanSuffixes (tryFieldAt marker pats) s

/-- Keyword table of `_categorize_issue`, in the order tested. -/
def securityKeywords : List String :=
  ["security", "sql injection", "xss", "vulnerability", "authentication",
   "authorization"]

/-- Performance bucket of `_categorize_issue`. -/
def performanceKeywords : List String :=
  ["performance", "slow", "inefficient", "optimize", "memory", "cpu"]

/-- Bug bucket of `_categorize_issue`. -/
def bugKeywords : List String :=
  ["bug", "error", "exception", "crash", "null", "undefined"]

/-- Style bucket of `_categorize_issue`. -/
def styleKeywords : List String :=
  ["style", "naming", "convention", "format"]

/-- Documentation bucket of `_categorize_issue`. -/
def documentationKeywords : List String :=
  ["documentation", "comment", "docstring"]

/-- `any(keyword in description_lower for keyword in kws)`. -/
def containsAny (kws : List String) (lowered : List Char) : Bool :=
  kws.any (fun k => containsSub k.data lowered)

/-- `CodeAnalyzer._categorize_issue`. -/
def categorize_issue (description : String) : String :=
  let d := lowerCL description.data
  if containsAny securityKeywords d then "security"
  else if containsAny performanceKeywords d then "performance"
  else if containsAny bugKeywords d then "bug"
  else if containsAny styleKeywords d then "style"
  else if containsAny documentationKeywords d then "documentation"
  else "general"

/-- `CodeAnalyzer._parse_issue_block`.  The `try/except` wrapper in the
source cannot fire: none of the operations in the block raise. -/
def parse_issue_block (block : List Char) (line_offset : Int) :
    Option Issue :=
  match scanSeverity block with
  | none => none
  | some sevTok =>
    let desc :=
      match scanField issueMarkerPat [impactPat, solutionPat] block with
      | some d => String.mk (pyStrip d)
      | none => "Unknown issue"
    let impact :=
      match scanField impactPat [solutionPat] block with
      | some d => String.mk (pyStrip d)
      | none => "Unknown impact"
    let sugg :=
      match scanField solutionPat [] block with
      | some d => String.mk (pyStrip d)
      | none => "No solution provided"
    some
      { type := categorize_issue desc
        severity := String.mk sevTok
        line := (((scanLineColon block).getD 1 : Nat) : Int) + line_offset
        description := desc
        suggestion := sugg
        impact := impact }

/-! ## The legacy parser (`_parse_legacy_response`) -/

/-- ASCII `\w`. -/
def isWordChar (c : Char) : Bool := c.isAlphanum || c = '_'

/-- Alternatives of `r'\b(CRITICAL|HIGH|MEDIUM|LOW)\b'`, in order. -/
def legacySeverityPats : List (List Char) :=
  ["critical".data, "high".data, "medium".data, "low".data]

/-- Word character right after position `n` of `s` (failure of the trailing
`\b`). -/
def wordCharAfter (s : List Char) (n : Nat) : Bool :=
  match s.drop n with
  | c :: _ => isWordChar c
  | [] => false

/-- Match of `\b(CRITICAL|HIGH|MEDIUM|LOW)\b` (IGNORECASE) anchored at the
start of `s`, where `prev` is the character before `s` (`none` at the start
of the line).  Returns the uppercased severity. -/
def tryLegacySevAt (prev : Option Char) (s : List Char) :
    Option (List Char) :=
  if (match prev with | some p => !isWordChar p | none => true) then
    legacySeverityPats.findSome? fun pat =>
      if ciStarts pat s && !wordCharAfter s pat.length then
        some (pat.map Char.toUpper)
      else none
  else none

/-- `re.search(r'\b(CRITICAL|HIGH|MEDIUM|LOW)\b', line, re.IGNORECASE)`. -/
def scanLegacySev : Option Char → List Char → Option (List Char)
  | _, [] => none
  | prev, c :: t =>
    match tryLegacySevAt prev (c :: t) with
    | some r => some r
    | none => scanLegacySev (some c) t

/-- Match of `line\s+(\d+)` (IGNORECASE) anchored at the start of `s`;
note the mandatory whitespace (`\s+`, not `\s*`). -/
def tryLineSpaceAt (s : List Char) : Option Nat :=
  if ciStarts "line".data s then
    let rest := s.drop 4
    if (rest.takeWhile isPySpace).isEmpty then none
    else
      let ds := (rest.dropWhile isPySpace).takeWhile Char.isDigit
      if ds.isEmpty then none else some (natOfDigits ds)
  else none

/-- `re.search(r'line\s+(\d+)', text, re.IGNORECASE)`. -/
def scanLineSpace (s : List Char) : Option Nat :=
  scanSuffixes tryLineSpaceAt s

/-- `CodeAnalyzer._extract_line_number`. -/
def extract_line_number (text : List Char) : Nat :=
  (scanLineSpace text).getD 1

/-- One iteration of the line loop of `_parse_legacy_response`.  The state
is (flushed issues, in-progress issue); the in-progress dict is `none`
exactly when Python's `current_issue` is the falsy empty dict. -/
def legacyStep (off : Int) (st : List Issue × Option Issue)
    (rawLine : String) : List Issue × Option Issue :=
  let line := pyStrip rawLine.data
  let sev := scanLegacySev none line
  let issues := st.1
  let cur := st.2
  let issues :=
    match sev, cur with
    | some _, some c => issues ++ [c]
    | _, _ => issues
  let cur : Option Issue :=
    match sev with
    | some sevTok =>
      some
        { severity := String.mk sevTok
          description := String.mk line
          line := ((extract_line_number line : Nat) : Int) + off
          type := "general"
          suggestion := ""
          impact := "" }
    | none => cur
  let cur :=
    match scanLineSpace line, cur with
    | some n, some c => some { c with line := ((n : Nat) : Int) + off }
    | _, c => c
  let cur :=
    match cur with
    | some c =>
      if !line.isEmpty && sev.isNone then
        if containsSub "suggestion".data (lowerCL line) ||
            containsSub "fix".data (lowerCL line) then
          some { c with suggestion := c.suggestion ++ " " ++ String.mk line }
        else
          some { c with description := c.description ++ " " ++ String.mk line }
      else some c
    | none => none
  (issues, cur)

/-- `CodeAnalyzer._parse_legacy_response`. -/
def parse_legacy_response (response : String) (line_offset : Int) :
    List Issue :=
  let st := (splitLines response).foldl (legacyStep line_offset) ([], none)
  match st.2 with
  | some c => st.1 ++ [c]
  | none => st.1

/-! ## The response parser (`_parse_model_response`) -/

/-- The "clean" short-circuit test of `_parse_model_response`. -/
def noIssuesSignal (response : String) : Bool :=
  containsSub "no significant issues found".data (lowerCL response.data) ||
  containsSub "no issues found".data (lowerCL response.data)

/-- `re.split(r'(?=SEVERITY:)', response, flags=re.IGNORECASE|re.MULTILINE)`:
cut before every occurrence of the marker; the segment before the first
marker (possibly empty) is kept. -/
def splitBlocksGo (cur : List Char) : List Char → List (List Char)
  | [] => [cur.reverse]
  | c :: t =>
    if ciStarts sevPat (c :: t) then cur.reverse :: splitBlocksGo [c] t
    else splitBlocksGo (c :: cur) t

/-- Block decomposition of a response at `SEVERITY:` markers. -/
def splitBlocks (s : List Char) : List (List Char) := splitBlocksGo [] s

/-- `CodeAnalyzer._parse_model_response`. -/
def parse_model_response (response : String) (line_offset : Int) :
    List Issue :=
  if noIssuesSignal response then []
  else if ((splitBlocks response.data).filterMap fun b =>
      if (pyStrip b).isEmpty then none
      else parse_issue_block b line_offset).isEmpty then
    parse_legacy_response response line_offset
  else
    (splitBlocks response.data).filterMap fun b =>
      if (pyStrip b).isEmpty then none else parse_issue_block b line_offset

/-! ## Configuration (`AnalysisConfig` fields read by the analyzer)

Defaults are those of `config.py`.  `config.py` attaches no validator to any
of these fields.  The counts are modelled as `Nat` (their defaults and env
overrides in the repository are positive). -/

/-- The slice of `config.AnalysisConfig` that `CodeAnalyzer` reads. -/
structure AnalysisConfig where
  supported_languages : List String := ["python", "javascript", "typescript", "java"]
  max_file_size : Nat := 1000000
  chunk_size : Nat := 2000
  chunk_overlap : Nat := 200
  max_suggestions_per_file : Nat := 20
deriving Repr

/-! ## Chunk planning (`_chunk_code`, `_chunk_python_ast`, `_chunk_by_lines`)

A chunk is content paired with its 1-based starting line.  Starting lines
are `Int` because the overlap arithmetic of `_chunk_by_lines` can produce
values below 1 (no clamping is applied in the source). -/

/-- `stripped.startswith(('class ', 'def ', 'async def '))`. -/
def declStart (s : String) : Bool :=
  ["class ", "def ", "async def "].any fun p => p.data.isPrefixOf s.data

/-- `CodeAnalyzer._is_logical_break`; `next` is `all_lines[index+1]` when it
exists. -/
def isLogicalBreak (line : String) (next : Option String) : Bool :=
  let stripped := stripStr line
  declStart stripped ||
  (stripped.isEmpty &&
    (match next with
     | some nl => declStart (stripStr nl)
     | none => false))

/-- The accumulation loop of `_chunk_by_lines`.  Arguments mirror the
Python locals: remaining lines, the 0-based index `i` of the next line,
the chunks emitted so far, `current_chunk`, and `chunk_start_line`.
Chunks are kept as line lists here; `chunk_by_lines` joins them. -/
def chunkByLinesGo (cs co : Nat) :
    List String → Nat → List (List String × Int) → List String → Int →
    List (List String × Int)
  | [], _, chunks, cur, start =>
    if cur.isEmpty then chunks else chunks ++ [(cur, start)]
  | l :: rest, i, chunks, cur, start =>
    let cur2 := cur ++ [l]
    let currentLine : Int := (i : Int) + 1
    let shouldBreak := decide (cs ≤ cur2.length) || isLogicalBreak l rest.head?
    if shouldBreak && decide (10 < cur2.length) then
      let chunks2 := chunks ++ [(cur2, start)]
      if 0 < co then
        chunkByLinesGo cs co rest (i + 1) chunks2
          (cur2.drop (cur2.length - co)) (currentLine - (co : Int) + 1)
      else
        chunkByLinesGo cs co rest (i + 1) chunks2 [] (currentLine + 1)
    else
      chunkByLinesGo cs co rest (i + 1) chunks cur2 start

/-- `CodeAnalyzer._chunk_by_lines`, before joining each chunk's lines. -/
def chunk_by_lines_rep (cfg : AnalysisConfig) (lines : List String) :
    List (List String × Int) :=
  if (chunkByLinesGo cfg.chunk_size cfg.chunk_overlap lines 0 [] [] 1).isEmpty
  then [(lines, 1)]
  else chunkByLinesGo cfg.chunk_size cfg.chunk_overlap lines 0 [] [] 1

/-- `CodeAnalyzer._chunk_by_lines`. -/
def chunk_by_lines (cfg : AnalysisConfig) (lines : List String) :
    List (String × Int) :=
  (chunk_by_lines_rep cfg lines).map fun c => (joinLines c.1, c.2)

/-- `CodeAnalyzer._chunk_python_ast`.  `astDecls` abstracts the
`ast.parse`/`ast.walk` collaborator (see the header): `none` is a
`SyntaxError`, `some decls` the `(lineno, end_lineno)` spans of the
class/function nodes found, in walk order. -/
def chunk_python_ast (cfg : AnalysisConfig)
    (astDecls : Option (List (Nat × Nat))) (code : String) :
    List (String × Int) :=
  match astDecls with
  | none => chunk_by_lines cfg (splitLines code)
  | some decls =>
    let lines := splitLines code
    let chunks := decls.filterMap fun d =>
      let contextBefore := max 1 (d.1 - 5)
      let contextAfter := min lines.length (d.2 + 5)
      let content :=
        joinLines ((lines.drop (contextBefore - 1)).take
          (contextAfter - (contextBefore - 1)))
      if (pyStrip content.data).isEmpty then none
      else some (content, (contextBefore : Int))
    if chunks.isEmpty then chunk_by_lines cfg lines else chunks

/-- `CodeAnalyzer._chunk_code`. -/
def chunk_code (cfg : AnalysisConfig) (astDecls : Option (List (Nat × Nat)))
    (language code : String) : List (String × Int) :=
  let lines := splitLines code
  if lines.length ≤ cfg.chunk_size then [(code, 1)]
  else if language == "python" then chunk_python_ast cfg astDecls code
  else chunk_by_lines cfg (splitLines code)

/-! ## Aggregation (`_deduplicate_issues`, `_sort_issues_by_severity`,
and the per-file cap of `analyze_file`) -/

/-- The dedup key of `_deduplicate_issues`. -/
def issueKey (i : Issue) : Int × String × String :=
  (i.line, i.type, i.description)

/-- The loop of `_deduplicate_issues`: keep the first occurrence of each
key; `seen` is the Python set (membership is all that is used). -/
def dedupGo (seen : List (Int × String × String)) :
    List Issue → List Issue
  | [] => []
  | x :: xs =>
    if issueKey x ∈ seen then dedupGo seen xs
    else x :: dedupGo (issueKey x :: seen) xs

/-- `CodeAnalyzer._deduplicate_issues` (as a function on the issue list). -/
def dedupIssues (l : List Issue) : List Issue := dedupGo [] l

/-- `severity_order.get(severity, 4)` with
`{'CRITICAL': 0, 'HIGH': 1, 'MEDIUM': 2, 'LOW': 3, 'INFO': 4}`.  The
`x.get('severity', 'INFO')` default cannot fire: every issue dict carries a
severity. -/
def severityRank (s : String) : Nat :=
  if s = "CRITICAL" then 0
  else if s = "HIGH" then 1
  else if s = "MEDIUM" then 2
  else if s = "LOW" then 3
  else 4

/-- The sort key order of `_sort_issues_by_severity`: severity rank, then
line, lexicographically. -/
def issueLE (a b : Issue) : Bool :=
  decide (severityRank a.severity < severityRank b.severity) ||
  (decide (severityRank a.severity = severityRank b.severity) &&
    decide (a.line ≤ b.line))

/-- `CodeAnalyzer._sort_issues_by_severity`: Python `list.sort` is a stable
sort by the key; it is embedded as a stable insertion sort under the same
total preorder (any two stable sorts under one total preorder agree). -/
def sortIssues (l : List Issue) : List Issue :=
  List.insertionSort (fun a b => issueLE a b = true) l

/-- The post-processing of `analyze_file`: deduplicate, sort, then truncate
to `max_suggestions_per_file` (`issues[:cap]`, a no-op when already within
the cap). -/
def aggregateIssues (cap : Nat) (l : List Issue) : List Issue :=
  (sortIssues (dedupIssues l)).take cap

/-! ## The per-file pipeline (`analyze_file`) -/

/-- The boolean option set built by `analyze_file`. -/
structure AnalysisOptions where
  suggestions : Bool
  performance : Bool
  security : Bool
deriving DecidableEq, Repr

/-- Python `str(bool)`. -/
def boolStr (b : Bool) : String := if b then "True" else "False"

/-- `CodeAnalyzer._generate_cache_key`:
`f"{code}{language}{str(sorted(options.items()))}"`, the items sorted
alphabetically (performance, security, suggestions).  The final sha256
hexdigest is modelled as the identity on this pre-image — the behaviour
relied on is only that equal inputs give equal keys.  (Python `str` also
quotes the key names; the quoting adds nothing to key equality.) -/
def generate_cache_key (code language : String) (opts : AnalysisOptions) :
    String :=
  code ++ language ++
    "[(performance, " ++ boolStr opts.performance ++
    "), (security, " ++ boolStr opts.security ++
    "), (suggestions, " ++ boolStr opts.suggestions ++ ")]"

/-- Per-file result container (`AnalysisResult`).  The unread `timestamp`,
the `metadata` metrics dict and the unused per-category lists are not
modelled; `analysis_time` keeps its slot because the cache-hit path rebinds
it. -/
structure AnalysisResult where
  file_path : String
  language : String
  issues : List Issue
  model_response : String
  analysis_time : Int
deriving DecidableEq, Repr

/-- The analyzer's in-memory `self.cache` dict: association list with
front insertion and first-match lookup. -/
def Cache := List (String × AnalysisResult)

/-- Dict lookup `self.cache[key]` guarded by `key in self.cache`. -/
def cacheLookup (c : Cache) (k : String) : Option AnalysisResult :=
  ((c : List (String × AnalysisResult)).find? fun p => p.1 == k).map
    fun p => p.2

/-- Dict store `self.cache[key] = v`. -/
def cacheStore (c : Cache) (k : String) (v : AnalysisResult) : Cache :=
  ((k, v) :: c : List (String × AnalysisResult))

/-- The synthetic oversize finding of `analyze_file`. -/
def sizeIssue (cfg : AnalysisConfig) : Issue :=
  { type := "size"
    severity := "HIGH"
    line := 1
    description :=
      "File exceeds maximum size limit (" ++ toString cfg.max_file_size ++
        " bytes)"
    suggestion := "Consider splitting into smaller modules"
    impact := "" }

/-- `len(code.encode('utf-8'))`. -/
def utf8Length (s : String) : Nat :=
  s.data.foldl (fun n c => n + c.utf8Size) 0

/-- Result of one `analyze_file` call, with the explicit state the Python
method touches: the returned `AnalysisResult`, the cache afterwards, and
how many oracle invocations (`self.model.analyze_code`, one per chunk)
were made. -/
structure AnalyzeOutcome where
  result : AnalysisResult
  cache : Cache
  oracleCalls : Nat

/-- The chunk loop of `analyze_file` on a cache miss: invoke the oracle on
every chunk, parse each response at the chunk's starting line, concatenate
the chunk finding lists in chunk order, then deduplicate, sort and cap. -/
def analyzeCompute (cfg : AnalysisConfig) (oracle : String → String)
    (astDecls : Option (List (Nat × Nat)))
    (file_path language code : String) (t : Int) : AnalysisResult :=
  let chunks := chunk_code cfg astDecls language code
  { file_path := file_path
    language := language
    issues :=
      aggregateIssues cfg.max_suggestions_per_file
        ((chunks.map fun c => parse_model_response (oracle c.1) c.2).flatten)
    model_response := String.join (chunks.map fun c => oracle c.1 ++ "\n\n")
    analysis_time := t }

/-- `CodeAnalyzer.analyze_file`, after the file has been read and the
language resolved.  `oracle` is the external model
(`self.model.analyze_code` on a chunk's code; language and mode are fixed
per call so they are folded into the function), `t` the elapsed
`analysis_time` of this call, `useCache` the `cache` keyword argument.
The cache-hit branch mutates the shared cached object in place
(`cached_result.file_path = file_path`); here the rebound record is stored
back under its key so the cache entry and the returned value remain the
same value. -/
def analyzeFile (cfg : AnalysisConfig) (oracle : String → String)
    (astDecls : Option (List (Nat × Nat))) (cache : Cache)
    (useCache : Bool) (file_path language code : String)
    (opts : AnalysisOptions) (t : Int) : AnalyzeOutcome :=
  if language ∈ cfg.supported_languages then
    if cfg.max_file_size < utf8Length code then
      { result :=
          { file_path := file_path, language := language
            issues := [sizeIssue cfg], model_response := ""
            analysis_time := t }
        cache := cache, oracleCalls := 0 }
    else
      let key := generate_cache_key code language opts
      match (if useCache then cacheLookup cache key else none) with
      | some r =>
        let r2 := { r with file_path := file_path, analysis_time := t }
        { result := r2, cache := cacheStore cache key r2, oracleCalls := 0 }
      | none =>
        let result := analyzeCompute cfg oracle astDecls file_path language code t
        { result := result
          cache := if useCache then cacheStore cache key result else cache
          oracleCalls := (chunk_code cfg astDecls language code).length }
  else
    { result :=
        { file_path := file_path, language := language, issues := []
          model_response := "", analysis_time := t }
      cache := cache, oracleCalls := 0 }

/-! ## Branch lemmas for `analyzeFile` -/

/-- Storing under a key makes it the key's binding. -/
theorem cacheLookup_cacheStore (c : Cache) (k : String) (v : AnalysisResult) :
    cacheLookup (cacheStore c k v) k = some v := by
  simp [cacheLookup, cacheStore, List.find?]

/-- The cache-hit branch of `analyze_file`: the stored result is returned
with `file_path` and `analysis_time` rebound, and (the shared object being
mutated in place) the cache entry becomes that rebound record. -/
theorem analyzeFile_hit_eq (cfg : AnalysisConfig) (oracle : String → String)
    (astDecls : Option (List (Nat × Nat))) (cache : Cache)
    (file_path language code : String) (opts : AnalysisOptions) (t : Int)
    (r : AnalysisResult)
    (hl : language ∈ cfg.supported_languages)
    (hs : utf8Length code ≤ cfg.max_file_size)
    (hhit : cacheLookup cache (generate_cache_key code language opts) = some r) :
    analyzeFile cfg oracle astDecls cache true file_path language code opts t =
      { result := { r with file_path := file_path, analysis_time := t }
        cache := cacheStore cache (generate_cache_key code language opts)
          { r with file_path := file_path, analysis_time := t }
        oracleCalls := 0 } := by
  unfold analyzeFile
  rw [if_pos hl, if_neg (not_lt.2 hs)]
  simp only [if_true, hhit]

/-- The cache-miss branch of `analyze_file` with caching on: the result is
computed by the chunk pipeline, stored under the fingerprint key, and one
oracle call is made per chunk. -/
theorem analyzeFile_miss_eq (cfg : AnalysisConfig) (oracle : String → String)
    (astDecls : Option (List (Nat × Nat))) (cache : Cache)
    (file_path language code : String) (opts : AnalysisOptions) (t : Int)
    (hl : language ∈ cfg.supported_languages)
    (hs : utf8Length code ≤ cfg.max_file_size)
    (hmiss : cacheLookup cache (generate_cache_key code language opts) = none) :
    analyzeFile cfg oracle astDecls cache true file_path language code opts t =
      { result := analyzeCompute cfg oracle astDecls file_path language code t
        cache := cacheStore cache (generate_cache_key code language opts)
          (analyzeCompute cfg oracle astDecls file_path language code t)
        oracleCalls := (chunk_code cfg astDecls language code).length } := by
  unfold analyzeFile
  rw [if_pos hl, if_neg (not_lt.2 hs)]
  simp only [if_true, hmiss]

/-! ## Claim C6 -/

/-- C6: a source text with at most `chunk_size` lines (an empty file has
one line, a file with exactly `chunk_size` lines meets the boundary) is
planned as exactly one chunk holding the unmodified text at line 1. -/
theorem chunk_code_small_file (cfg : AnalysisConfig)
    (astDecls : Option (List (Nat × Nat))) (language code : String)
    (h : (splitLines code).length ≤ cfg.chunk_size) :
    chunk_code cfg astDecls language code = [(code, 1)] := by
  unfold chunk_code
  simp [h]

/-- C6 witness: the empty file, and a three-line file at the exact
`chunk_size` boundary. -/
theorem chunk_code_small_file_witness :
    ((splitLines "").length ≤ ({} : AnalysisConfig).chunk_size ∧
      chunk_code {} none "python" "" = [("", 1)]) ∧
    ((splitLines "a\nb\nc").length ≤
        ({ chunk_size := 3 } : AnalysisConfig).chunk_size ∧
      chunk_code { chunk_size := 3 } none "javascript" "a\nb\nc" =
        [("a\nb\nc", 1)]) :=
  ⟨⟨by decide, chunk_code_small_file {} none "python" "" (by decide)⟩,
   ⟨by decide,
    chunk_code_small_file { chunk_size := 3 } none "javascript" "a\nb\nc"
      (by decide)⟩⟩

/-! ## Claim C8 -/

/-- C8: the canonical structured response parses, at any line offset `o`,
to exactly one finding with severity HIGH, line `3 + o`, description
"null deref", impact "crash" and suggestion "check null". -/
theorem parse_round_trip (o : Int) :
    parse_model_response
      "SEVERITY: HIGH\nLINE: 3\nISSUE: null deref\nIMPACT: crash\nSOLUTION: check null"
      o =
    [{ type := "bug", severity := "HIGH", line := 3 + o,
       description := "null deref", suggestion := "check null",
       impact := "crash" }] := rfl

/-! ## Claim C5 -/

/-- C5 counterexample: an oversized file whose language is unsupported
("rust" is not in the default supported set) yields an *empty* issue list,
not a "size" finding — the language check short-circuits before the size
check, refuting the claim for arbitrary files. -/
theorem analyzeFile_oversize_counterexample :
    ({ max_file_size := 3 } : AnalysisConfig).max_file_size <
      utf8Length "abcd" ∧
    (analyzeFile { max_file_size := 3 } (fun _ => "") none [] true "big.rs"
        "rust" "abcd"
        { suggestions := true, performance := true, security := true }
        0).result.issues = [] :=
  ⟨by decide, by decide⟩

/-- C5 (amended: the language must be supported, since the unsupported-
language branch precedes the size check): for a supported language, a
source whose UTF-8 byte length exceeds `max_file_size` short-circuits to a
result with exactly one synthetic finding — the HIGH "size" finding at
line 1 — with zero oracle invocations and the cache left untouched. -/
theorem analyzeFile_oversize (cfg : AnalysisConfig) (oracle : String → String)
    (astDecls : Option (List (Nat × Nat))) (cache : Cache) (useCache : Bool)
    (file_path language code : String) (opts : AnalysisOptions) (t : Int)
    (hl : language ∈ cfg.supported_languages)
    (hs : cfg.max_file_size < utf8Length code) :
    analyzeFile cfg oracle astDecls cache useCache file_path language code
        opts t =
      { result :=
          { file_path := file_path, language := language
            issues := [sizeIssue cfg], model_response := ""
            analysis_time := t }
        cache := cache, oracleCalls := 0 } ∧
    (sizeIssue cfg).severity = "HIGH" ∧ (sizeIssue cfg).type = "size" ∧
    (sizeIssue cfg).line = 1 := by
  refine ⟨?_, rfl, rfl, rfl⟩
  unfold analyzeFile
  rw [if_pos hl, if_pos hs]

/-- C5 witness: a 4-byte "python" file against a 3-byte limit. -/
theorem analyzeFile_oversize_witness :
    analyzeFile { max_file_size := 3 } (fun _ => "") none [] true "big.py"
        "python" "abcd"
        { suggestions := true, performance := true, security := true } 0 =
      { result :=
          { file_path := "big.py", language := "python"
            issues := [sizeIssue { max_file_size := 3 }]
            model_response := "", analysis_time := 0 }
        cache := [], oracleCalls := 0 } ∧
    (sizeIssue { max_file_size := 3 }).severity = "HIGH" ∧
    (sizeIssue { max_file_size := 3 }).type = "size" ∧
    (sizeIssue { max_file_size := 3 }).line = 1 :=
  analyzeFile_oversize { max_file_size := 3 } (fun _ => "") none [] true
    "big.py" "python" "abcd"
    { suggestions := true, performance := true, security := true } 0
    (by decide) (by decide)

/-! ## Claim C9 -/

/-- C9: with caching enabled, analyzing the same source, language and
option set twice returns identical finding lists, and the second call is
served from the cache with zero oracle invocations. -/
theorem analyzeFile_idempotent_cached (cfg : AnalysisConfig)
    (oracle : String → String) (astDecls : Option (List (Nat × Nat)))
    (cache : Cache) (p1 p2 language code : String) (opts : AnalysisOptions)
    (t1 t2 : Int)
    (hl : language ∈ cfg.supported_languages)
    (hs : utf8Length code ≤ cfg.max_file_size)
    (hmiss : cacheLookup cache (generate_cache_key code language opts) = none) :
    (analyzeFile cfg oracle astDecls
        (analyzeFile cfg oracle astDecls cache true p1 language code opts
          t1).cache
        true p2 language code opts t2).result.issues =
      (analyzeFile cfg oracle astDecls cache true p1 language code opts
        t1).result.issues ∧
    (analyzeFile cfg oracle astDecls
        (analyzeFile cfg oracle astDecls cache true p1 language code opts
          t1).cache
        true p2 language code opts t2).oracleCalls = 0 := by
  rw [analyzeFile_miss_eq cfg oracle astDecls cache p1 language code opts t1
    hl hs hmiss]
  rw [analyzeFile_hit_eq cfg oracle astDecls _ p2 language code opts t2 _
    hl hs (cacheLookup_cacheStore cache (generate_cache_key code language opts)
      (analyzeCompute cfg oracle astDecls p1 language code t1))]
  exact ⟨rfl, rfl⟩

/-- C9 witness: a one-line python file analyzed twice from an empty
cache. -/
theorem analyzeFile_idempotent_cached_witness :
    (analyzeFile {} (fun _ => "SEVERITY: LOW\nISSUE: style nit") none
        (analyzeFile {} (fun _ => "SEVERITY: LOW\nISSUE: style nit") none []
          true "a.py" "python" "x = 1"
          { suggestions := true, performance := true, security := true }
          3).cache
        true "b.py" "python" "x = 1"
        { suggestions := true, performance := true, security := true }
        9).result.issues =
      (analyzeFile {} (fun _ => "SEVERITY: LOW\nISSUE: style nit") none []
        true "a.py" "python" "x = 1"
        { suggestions := true, performance := true, security := true }
        3).result.issues ∧
    (analyzeFile {} (fun _ => "SEVERITY: LOW\nISSUE: style nit") none
        (analyzeFile {} (fun _ => "SEVERITY: LOW\nISSUE: style nit") none []
          true "a.py" "python" "x = 1"
          { suggestions := true, performance := true, security := true }
          3).cache
        true "b.py" "python" "x = 1"
        { suggestions := true, performance := true, security := true }
        9).oracleCalls = 0 :=
  analyzeFile_idempotent_cached {} (fun _ => "SEVERITY: LOW\nISSUE: style nit")
    none [] "a.py" "b.py" "python" "x = 1"
    { suggestions := true, performance := true, security := true } 3 9
    (by decide) (by decide) (by decide)

/-! ## Claim C10 -/

/-- C10: on a cache hit the stored result itself is returned after its
`file_path` and `analysis_time` are rebound (embedded as the cache entry
being rebound to the very record that is returned); a second call hitting
the same key returns that same shared entry with `file_path` rebound to
the latest requester's path, every other field of the cached entry —
issues, language, raw response — unchanged, and neither call invokes the
oracle. -/
theorem analyzeFile_cache_hit_alias (cfg : AnalysisConfig)
    (oracle : String → String) (astDecls : Option (List (Nat × Nat)))
    (cache : Cache) (p1 p2 language code : String) (opts : AnalysisOptions)
    (t1 t2 : Int) (r : AnalysisResult)
    (hl : language ∈ cfg.supported_languages)
    (hs : utf8Length code ≤ cfg.max_file_size)
    (hhit : cacheLookup cache (generate_cache_key code language opts) =
      some r) :
    (analyzeFile cfg oracle astDecls cache true p1 language code opts
        t1).result = { r with file_path := p1, analysis_time := t1 } ∧
    cacheLookup
        (analyzeFile cfg oracle astDecls cache true p1 language code opts
          t1).cache (generate_cache_key code language opts) =
      some (analyzeFile cfg oracle astDecls cache true p1 language code opts
        t1).result ∧
    (analyzeFile cfg oracle astDecls
        (analyzeFile cfg oracle astDecls cache true p1 language code opts
          t1).cache true p2 language code opts t2).result =
      { r with file_path := p2, analysis_time := t2 } ∧
    cacheLookup
        (analyzeFile cfg oracle astDecls
          (analyzeFile cfg oracle astDecls cache true p1 language code opts
            t1).cache true p2 language code opts t2).cache
        (generate_cache_key code language opts) =
      some (analyzeFile cfg oracle astDecls
        (analyzeFile cfg oracle astDecls cache true p1 language code opts
          t1).cache true p2 language code opts t2).result ∧
    (analyzeFile cfg oracle astDecls cache true p1 language code opts
        t1).oracleCalls = 0 ∧
    (analyzeFile cfg oracle astDecls
        (analyzeFile cfg oracle astDecls cache true p1 language code opts
          t1).cache true p2 language code opts t2).oracleCalls = 0 := by
  rw [analyzeFile_hit_eq cfg oracle astDecls cache p1 language code opts t1 r
    hl hs hhit]
  rw [analyzeFile_hit_eq cfg oracle astDecls _ p2 language code opts t2 _
    hl hs (cacheLookup_cacheStore cache (generate_cache_key code language opts)
      { r with file_path := p1, analysis_time := t1 })]
  refine ⟨rfl, ?_, rfl, ?_, rfl, rfl⟩
  · exact cacheLookup_cacheStore cache (generate_cache_key code language opts)
      { r with file_path := p1, analysis_time := t1 }
  · exact cacheLookup_cacheStore _ (generate_cache_key code language opts)
      { r with file_path := p2, analysis_time := t2 }

/-- C10 witness: a pre-populated one-entry cache hit by two calls with
different paths. -/
theorem analyzeFile_cache_hit_alias_witness :
    (analyzeFile {} (fun _ => "") none
        (cacheStore [] (generate_cache_key "c" "python"
          { suggestions := true, performance := true, security := true })
          { file_path := "a.py", language := "python", issues := []
            model_response := "r", analysis_time := 1 })
        true "b.py" "python" "c"
        { suggestions := true, performance := true, security := true }
        7).result =
      { file_path := "b.py", language := "python", issues := []
        model_response := "r", analysis_time := 7 } ∧
    (analyzeFile {} (fun _ => "") none
        (analyzeFile {} (fun _ => "") none
          (cacheStore [] (generate_cache_key "c" "python"
            { suggestions := true, performance := true, security := true })
            { file_path := "a.py", language := "python", issues := []
              model_response := "r", analysis_time := 1 })
          true "b.py" "python" "c"
          { suggestions := true, performance := true, security := true }
          7).cache
        true "d.py" "python" "c"
        { suggestions := true, performance := true, security := true }
        8).result =
      { file_path := "d.py", language := "python", issues := []
        model_response := "r", analysis_time := 8 } := by
  have h := analyzeFile_cache_hit_alias {} (fun _ => "") none
    (cacheStore [] (generate_cache_key "c" "python"
      { suggestions := true, performance := true, security := true })
      { file_path := "a.py", language := "python", issues := []
        model_response := "r", analysis_time := 1 })
    "b.py" "d.py" "python" "c"
    { suggestions := true, performance := true, security := true } 7 8
    { file_path := "a.py", language := "python", issues := []
      model_response := "r", analysis_time := 1 }
    (by decide) (by decide)
    (cacheLookup_cacheStore _ _ _)
  exact ⟨h.1, h.2.2.1⟩

/-! ## Claim C1 (counterexample) -/

/-- C1 counterexample: a block reporting chunk-relative line 3, parsed at
a chunk whose starting line is 2, yields absolute line 5 = 3 + 2, not
3 + 2 − 1 = 4: the parser adds the starting line without subtracting
one. -/
theorem parse_line_offset_counterexample :
    (parse_model_response "SEVERITY: HIGH\nLINE: 3\nISSUE: x" 2).map
        Issue.line = [5] ∧
    (5 : Int) ≠ 3 + 2 - 1 :=
  ⟨by decide, by decide⟩

/-! ## Claim C2 (counterexample) -/

/-- C2 counterexample: a structured block with `SEVERITY: BANANA` is not
discarded — the parser accepts any alphabetic token, producing a finding
with the sixth severity "BANANA". -/
theorem parse_severity_vocab_counterexample :
    (parse_model_response "SEVERITY: BANANA\nISSUE: x" 0).map Issue.severity =
      ["BANANA"] ∧
    "BANANA" ∉ ["CRITICAL", "HIGH", "MEDIUM", "LOW", "INFO"] :=
  ⟨by decide, by decide⟩

/-! ## Claim C3 (counterexample) -/

/-- C3 counterexample: an 8-line python file over a `chunk_size` of 5,
whose only declaration spans lines 1–2 (`ast.parse` of this source yields
exactly one `FunctionDef` with `lineno = 1`, `end_lineno = 2`), is
structurally chunked into a single chunk covering lines 1–7: the original
line "x8 = 8" appears in no chunk. -/
theorem chunk_coverage_counterexample :
    "x8 = 8" ∈ splitLines
      "def f():\n    pass\nx3 = 3\nx4 = 4\nx5 = 5\nx6 = 6\nx7 = 7\nx8 = 8" ∧
    (chunk_code { chunk_size := 5 } (some [(1, 2)]) "python"
        "def f():\n    pass\nx3 = 3\nx4 = 4\nx5 = 5\nx6 = 6\nx7 = 7\nx8 = 8").map
        Prod.fst =
      ["def f():\n    pass\nx3 = 3\nx4 = 4\nx5 = 5\nx6 = 6\nx7 = 7"] ∧
    "x8 = 8" ∉ splitLines
      "def f():\n    pass\nx3 = 3\nx4 = 4\nx5 = 5\nx6 = 6\nx7 = 7" :=
  ⟨by decide, by decide, by decide⟩

/-! ## Claim C7 (counterexample) -/

/-- C7 counterexample: with `chunk_size` 15 and `chunk_overlap` 12, a
20-line input whose line 11 is a declaration closes its first chunk at
line 11, and the next chunk's starting line is 11 − 12 + 1 = 0: no
clamping to ≥ 1 is applied. -/
theorem chunk_by_lines_no_clamp_counterexample :
    (chunk_by_lines { chunk_size := 15, chunk_overlap := 12 }
        ["a1", "a2", "a3", "a4", "a5", "a6", "a7", "a8", "a9", "a10",
         "def f():", "b12", "b13", "b14", "b15", "b16", "b17", "b18", "b19",
         "b20"]).map Prod.snd = [1, 0, 4, 7] ∧
    ¬ (1 : Int) ≤ 0 :=
  ⟨by decide, by decide⟩

/-! ## Aggregation lemmas (dedup, sort, cap) -/

/-- Every element surviving `dedupGo` has a key outside `seen`. -/
theorem mem_dedupGo_not_seen {seen : List (Int × String × String)}
    {l : List Issue} {f : Issue} (hf : f ∈ dedupGo seen l) :
    issueKey f ∉ seen := by
  induction l generalizing seen with
  | nil => simp [dedupGo] at hf
  | cons x xs ih =>
    by_cases hx : issueKey x ∈ seen
    · rw [dedupGo, if_pos hx] at hf
      exact ih hf
    · rw [dedupGo, if_neg hx] at hf
      rcases List.mem_cons.1 hf with h | h
      · subst h; exact hx
      · exact fun hc => ih h (List.mem_cons_of_mem _ hc)

/-- Every element surviving `dedupGo` is the first occurrence of its key
in the input list. -/
theorem dedupGo_find? {seen : List (Int × String × String)}
    {l : List Issue} {f : Issue} (hf : f ∈ dedupGo seen l) :
    l.find? (fun g => issueKey g == issueKey f) = some f := by
  induction l generalizing seen with
  | nil => simp [dedupGo] at hf
  | cons x xs ih =>
    by_cases hx : issueKey x ∈ seen
    · rw [dedupGo, if_pos hx] at hf
      have hne : issueKey x ≠ issueKey f :=
        fun h => mem_dedupGo_not_seen hf (h ▸ hx)
      rw [List.find?_cons_of_neg, ih hf]
      simpa using hne
    · rw [dedupGo, if_neg hx] at hf
      rcases List.mem_cons.1 hf with h | h
      · subst h
        rw [List.find?_cons_of_pos]
        simp
      · have hnot := mem_dedupGo_not_seen h
        have hne : issueKey x ≠ issueKey f := by
          intro he
          exact hnot (by rw [← he]; exact List.mem_cons_self _ _)
        rw [List.find?_cons_of_neg, ih h]
        simpa using hne

/-- `dedupGo` emits pairwise distinct keys. -/
theorem dedupGo_pairwise (seen : List (Int × String × String))
    (l : List Issue) :
    (dedupGo seen l).Pairwise (fun a b => issueKey a ≠ issueKey b) := by
  induction l generalizing seen with
  | nil => simp [dedupGo]
  | cons x xs ih =>
    by_cases hx : issueKey x ∈ seen
    · rw [dedupGo, if_pos hx]
      exact ih seen
    · rw [dedupGo, if_neg hx]
      refine List.Pairwise.cons ?_ (ih _)
      intro b hb he
      exact mem_dedupGo_not_seen hb (by rw [← he]; exact List.mem_cons_self _ _)

/-- The sort order of `_sort_issues_by_severity` is transitive. -/
theorem issueLE_trans (a b c : Issue) (h1 : issueLE a b = true)
    (h2 : issueLE b c = true) : issueLE a c = true := by
  simp only [issueLE, Bool.or_eq_true, Bool.and_eq_true, decide_eq_true_eq]
    at h1 h2 ⊢
  omega

/-- The sort order of `_sort_issues_by_severity` is total. -/
theorem issueLE_total (a b : Issue) :
    issueLE a b = true ∨ issueLE b a = true := by
  simp only [issueLE, Bool.or_eq_true, Bool.and_eq_true, decide_eq_true_eq]
  omega

/-! ## Claim C4 -/

/-- C4: after aggregation the issue list has pairwise distinct
(line, type, description) keys, each survivor being the first occurrence
of its key in the concatenated chunk order; it is sorted by the code's
severity rank (CRITICAL=0 … INFO=4, the rank of any other token also
being 4) and then by line; and its length never exceeds the configured
cap. -/
theorem aggregate_invariants (cap : Nat) (l : List Issue) :
    (aggregateIssues cap l).Pairwise (fun a b => issueKey a ≠ issueKey b) ∧
    (aggregateIssues cap l).Pairwise (fun a b => issueLE a b = true) ∧
    (aggregateIssues cap l).length ≤ cap ∧
    ∀ f ∈ aggregateIssues cap l,
      l.find? (fun g => issueKey g == issueKey f) = some f := by
  have hperm : List.Perm (sortIssues (dedupIssues l)) (dedupIssues l) :=
    List.perm_insertionSort _ _
  have hpw : (sortIssues (dedupIssues l)).Pairwise
      (fun a b => issueKey a ≠ issueKey b) :=
    (hperm.pairwise_iff (fun h => Ne.symm h)).2 (dedupGo_pairwise [] l)
  haveI : IsTrans Issue (fun a b => issueLE a b = true) :=
    ⟨fun a b c => issueLE_trans a b c⟩
  haveI : IsTotal Issue (fun a b => issueLE a b = true) := ⟨issueLE_total⟩
  have hsorted : (sortIssues (dedupIssues l)).Pairwise
      (fun a b => issueLE a b = true) :=
    List.sorted_insertionSort _ (dedupIssues l)
  refine ⟨?_, ?_, ?_, ?_⟩
  · exact List.Pairwise.sublist (List.take_sublist _ _) hpw
  · exact List.Pairwise.sublist (List.take_sublist _ _) hsorted
  · calc (aggregateIssues cap l).length
        = min cap (sortIssues (dedupIssues l)).length := List.length_take _ _
      _ ≤ cap := min_le_left _ _
  · intro f hf
    have hf2 : f ∈ sortIssues (dedupIssues l) :=
      (List.take_sublist _ _).subset hf
    exact dedupGo_find? (hperm.mem_iff.1 hf2)

/-- C4 witness: a concrete four-issue input (a duplicate key, an unknown
severity, unsorted order) aggregated with cap 2. -/
theorem aggregate_invariants_witness :
    (aggregateIssues 2
        [{ type := "bug", severity := "LOW", line := 9, description := "d1",
           suggestion := "", impact := "" },
         { type := "bug", severity := "HIGH", line := 4, description := "d2",
           suggestion := "s", impact := "" },
         { type := "bug", severity := "LOW", line := 9, description := "d1",
           suggestion := "other", impact := "x" },
         { type := "style", severity := "WEIRD", line := 1,
           description := "d3", suggestion := "", impact := "" }]).Pairwise
      (fun a b => issueKey a ≠ issueKey b) ∧
    (aggregateIssues 2
        [{ type := "bug", severity := "LOW", line := 9, description := "d1",
           suggestion := "", impact := "" },
         { type := "bug", severity := "HIGH", line := 4, description := "d2",
           suggestion := "s", impact := "" },
         { type := "bug", severity := "LOW", line := 9, description := "d1",
           suggestion := "other", impact := "x" },
         { type := "style", severity := "WEIRD", line := 1,
           description := "d3", suggestion := "", impact := "" }]).Pairwise
      (fun a b => issueLE a b = true) ∧
    (aggregateIssues 2
        [{ type := "bug", severity := "LOW", line := 9, description := "d1",
           suggestion := "", impact := "" },
         { type := "bug", severity := "HIGH", line := 4, description := "d2",
           suggestion := "s", impact := "" },
         { type := "bug", severity := "LOW", line := 9, description := "d1",
           suggestion := "other", impact := "x" },
         { type := "style", severity := "WEIRD", line := 1,
           description := "d3", suggestion := "", impact := "" }]).length ≤ 2 ∧
    ∀ f ∈ aggregateIssues 2
        [{ type := "bug", severity := "LOW", line := 9, description := "d1",
           suggestion := "", impact := "" },
         { type := "bug", severity := "HIGH", line := 4, description := "d2",
           suggestion := "s", impact := "" },
         { type := "bug", severity := "LOW", line := 9, description := "d1",
           suggestion := "other", impact := "x" },
         { type := "style", severity := "WEIRD", line := 1,
           description := "d3", suggestion := "", impact := "" }],
      ([{ type := "bug", severity := "LOW", line := 9, description := "d1",
          suggestion := "", impact := "" },
        { type := "bug", severity := "HIGH", line := 4, description := "d2",
          suggestion := "s", impact := "" },
        { type := "bug", severity := "LOW", line := 9, description := "d1",
          suggestion := "other", impact := "x" },
        { type := "style", severity := "WEIRD", line := 1,
          description := "d3", suggestion := "", impact := "" }] :
        List Issue).find? (fun g => issueKey g == issueKey f) = some f :=
  aggregate_invariants 2
    [{ type := "bug", severity := "LOW", line := 9, description := "d1",
       suggestion := "", impact := "" },
     { type := "bug", severity := "HIGH", line := 4, description := "d2",
       suggestion := "s", impact := "" },
     { type := "bug", severity := "LOW", line := 9, description := "d1",
       suggestion := "other", impact := "x" },
     { type := "style", severity := "WEIRD", line := 1, description := "d3",
       suggestion := "", impact := "" }]

/-! ## Loop invariants of `_chunk_by_lines` -/

/-- Coverage invariant of the `_chunk_by_lines` loop: any line already in
the running buffer, in an emitted chunk, or still to be consumed ends up
in an emitted chunk. -/
theorem chunkByLinesGo_covers (cs co : Nat) (rest : List String) :
    ∀ (i : Nat) (chunks : List (List String × Int)) (cur : List String)
      (start : Int) (x : String),
      x ∈ cur ∨ (∃ c ∈ chunks, x ∈ c.1) ∨ x ∈ rest →
      ∃ c ∈ chunkByLinesGo cs co rest i chunks cur start, x ∈ c.1 := by
  induction rest with
  | nil =>
    intro i chunks cur start x h
    rw [chunkByLinesGo]
    rcases h with h | h | h
    · rw [if_neg (by simp [List.isEmpty_iff]; exact List.ne_nil_of_mem h)]
      exact ⟨(cur, start), List.mem_append_right _ (List.mem_singleton.2 rfl), h⟩
    · rcases h with ⟨c, hc, hx⟩
      split
      · exact ⟨c, hc, hx⟩
      · exact ⟨c, List.mem_append_left _ hc, hx⟩
    · simp at h
  | cons l rest ih =>
    intro i chunks cur start x h
    have hmem : x ∈ cur ++ [l] ∨ (∃ c ∈ chunks, x ∈ c.1) ∨ x ∈ rest := by
      rcases h with h | h | h
      · exact Or.inl (List.mem_append_left _ h)
      · exact Or.inr (Or.inl h)
      · rcases List.mem_cons.1 h with h | h
        · exact Or.inl (h ▸ List.mem_append_right _ (List.mem_singleton.2 rfl))
        · exact Or.inr (Or.inr h)
    rw [chunkByLinesGo]
    split
    · have hmem2 : ∀ cur' : List String,
          x ∈ cur' ∨ (∃ c ∈ chunks ++ [(cur ++ [l], start)], x ∈ c.1) ∨
            x ∈ rest := by
        intro cur'
        rcases hmem with h | h | h
        · exact Or.inr (Or.inl ⟨(cur ++ [l], start),
            List.mem_append_right _ (List.mem_singleton.2 rfl), h⟩)
        · rcases h with ⟨c, hc, hx⟩
          exact Or.inr (Or.inl ⟨c, List.mem_append_left _ hc, hx⟩)
        · exact Or.inr (Or.inr h)
      split
      · exact ih _ _ _ _ x (hmem2 _)
      · exact ih _ _ _ _ x (hmem2 _)
    · exact ih _ _ _ _ x hmem

/-- Start-line invariant of the `_chunk_by_lines` loop: when the overlap
is at most the minimum close size (10), every emitted starting line stays
≥ 1, because a chunk can only close at a 1-based position ≥ 11. -/
theorem chunkByLinesGo_start_ge_one (cs co : Nat) (hco : co ≤ 10)
    (rest : List String) :
    ∀ (i : Nat) (chunks : List (List String × Int)) (cur : List String)
      (start : Int),
      cur.length ≤ i → 1 ≤ start → (∀ c ∈ chunks, 1 ≤ c.2) →
      ∀ c ∈ chunkByLinesGo cs co rest i chunks cur start, 1 ≤ c.2 := by
  induction rest with
  | nil =>
    intro i chunks cur start _ hstart hch c hc
    rw [chunkByLinesGo] at hc
    split at hc
    · exact hch c hc
    · rcases List.mem_append.1 hc with h | h
      · exact hch c h
      · rw [List.mem_singleton] at h
        subst h
        exact hstart
  | cons l rest ih =>
    intro i chunks cur start hlen hstart hch c hc
    rw [chunkByLinesGo] at hc
    split at hc
    next hbr =>
      have h10 : 10 < (cur ++ [l]).length := by
        simp only [Bool.and_eq_true, decide_eq_true_eq] at hbr
        exact hbr.2
      have hlen2 : (cur ++ [l]).length ≤ i + 1 := by
        simp only [List.length_append, List.length_singleton]
        omega
      have hch2 : ∀ c' ∈ chunks ++ [(cur ++ [l], start)], 1 ≤ c'.2 := by
        intro c' hc'
        rcases List.mem_append.1 hc' with h | h
        · exact hch c' h
        · rw [List.mem_singleton] at h
          subst h
          exact hstart
      split at hc
      · refine ih (i + 1) _ _ _ ?_ ?_ hch2 c hc
        · simp only [List.length_drop]
          omega
        · have h11 : 11 ≤ i + 1 := by omega
          omega
      · refine ih (i + 1) _ _ _ ?_ ?_ hch2 c hc
        · simp
        · omega
    next =>
      refine ih (i + 1) chunks (cur ++ [l]) start ?_ hstart hch c hc
      simp only [List.length_append, List.length_singleton]
      omega

/-! ## Claim C3 -/

/-- C3 (amended): *line-based* chunking never drops a line — every line of
the input is contained in at least one planned chunk (`chunk_by_lines`
being the line-list chunks of `chunk_by_lines_rep` joined with
newlines).  Structural (AST) chunking does not have this property: see the
counterexample. -/
theorem chunk_by_lines_covers (cfg : AnalysisConfig) (lines : List String) :
    (∀ x ∈ lines, ∃ c ∈ chunk_by_lines_rep cfg lines, x ∈ c.1) ∧
    chunk_by_lines cfg lines =
      (chunk_by_lines_rep cfg lines).map fun c => (joinLines c.1, c.2) := by
  refine ⟨?_, rfl⟩
  intro x hx
  unfold chunk_by_lines_rep
  split
  · exact ⟨(lines, 1), List.mem_singleton.2 rfl, hx⟩
  · exact chunkByLinesGo_covers cfg.chunk_size cfg.chunk_overlap lines 0 [] []
      1 x (Or.inr (Or.inr hx))

/-- C3 witness: the last line of a 20-line input split into four
overlapping chunks is still covered. -/
theorem chunk_by_lines_covers_witness :
    ∃ c ∈ chunk_by_lines_rep { chunk_size := 15, chunk_overlap := 12 }
      ["a1", "a2", "a3", "a4", "a5", "a6", "a7", "a8", "a9", "a10",
       "def f():", "b12", "b13", "b14", "b15", "b16", "b17", "b18", "b19",
       "b20"], "b20" ∈ c.1 :=
  (chunk_by_lines_covers { chunk_size := 15, chunk_overlap := 12 }
    ["a1", "a2", "a3", "a4", "a5", "a6", "a7", "a8", "a9", "a10",
     "def f():", "b12", "b13", "b14", "b15", "b16", "b17", "b18", "b19",
     "b20"]).1 "b20" (by decide)

/-! ## Claim C7 -/

/-- C7 (amended): after a close the next chunk carries the last
`min(chunk_overlap, previous length)` lines and starts at
`closing position − chunk_overlap + 1` with *no* clamping; whenever
`0 < chunk_overlap ≤ 10` this expression stays ≥ 1 (a chunk only closes at
a position ≥ 11), so every emitted chunk's starting line is ≥ 1.  For
overlaps ≥ 12 the counterexample exhibits a start of 0. -/
theorem chunk_by_lines_start_ge_one (cfg : AnalysisConfig)
    (lines : List String) (_hpos : 0 < cfg.chunk_overlap)
    (hco : cfg.chunk_overlap ≤ 10) :
    ∀ c ∈ chunk_by_lines cfg lines, 1 ≤ c.2 := by
  intro c hc
  unfold chunk_by_lines at hc
  rcases List.mem_map.1 hc with ⟨c0, hc0, rfl⟩
  unfold chunk_by_lines_rep at hc0
  split at hc0
  · rw [List.mem_singleton] at hc0
    subst hc0
    exact le_refl 1
  · exact chunkByLinesGo_start_ge_one cfg.chunk_size cfg.chunk_overlap hco
      lines 0 [] [] 1 (by simp) (le_refl 1) (by simp) c0 hc0

/-- C7 witness: a 25-line file with `chunk_size` 10 and `chunk_overlap` 3
keeps all starting lines ≥ 1. -/
theorem chunk_by_lines_start_ge_one_witness :
    (0 < ({ chunk_size := 10, chunk_overlap := 3 } :
        AnalysisConfig).chunk_overlap ∧
      ({ chunk_size := 10, chunk_overlap := 3 } :
        AnalysisConfig).chunk_overlap ≤ 10) ∧
    ∀ c ∈ chunk_by_lines { chunk_size := 10, chunk_overlap := 3 }
      ["x1", "x2", "x3", "x4", "x5", "x6", "x7", "x8", "x9", "x10", "x11",
       "x12", "x13", "x14", "x15", "x16", "x17", "x18", "x19", "x20", "x21",
       "x22", "x23", "x24", "x25"], 1 ≤ c.2 :=
  ⟨⟨by decide, by decide⟩,
   chunk_by_lines_start_ge_one { chunk_size := 10, chunk_overlap := 3 }
     ["x1", "x2", "x3", "x4", "x5", "x6", "x7", "x8", "x9", "x10", "x11",
      "x12", "x13", "x14", "x15", "x16", "x17", "x18", "x19", "x20", "x21",
      "x22", "x23", "x24", "x25"] (by decide) (by decide)⟩

/-! ## Parser invariants -/

/-- A parsed structured block's line is the extracted chunk-relative line
(defaulting to 1) plus the offset, exactly as `_parse_issue_block` adds
`line_offset`. -/
theorem parse_issue_block_line (block : List Char) (off : Int) (f : Issue)
    (h : parse_issue_block block off = some f) :
    f.line = (((scanLineColon block).getD 1 : Nat) : Int) + off := by
  unfold parse_issue_block at h
  cases hs : scanSeverity block with
  | none => rw [hs] at h; cases h
  | some tok =>
    rw [hs] at h
    cases h
    rfl

/-- A block with no severity marker is discarded by `_parse_issue_block`. -/
theorem parse_issue_block_discard (block : List Char) (off : Int)
    (h : scanSeverity block = none) :
    parse_issue_block block off = none := by
  unfold parse_issue_block
  rw [h]

/-- A successful legacy severity match at one position yields one of the
four uppercased alternation members. -/
theorem tryLegacySevAt_mem (prev : Option Char) (s : List Char)
    (r : List Char) (h : tryLegacySevAt prev s = some r) :
    String.mk r ∈ (["CRITICAL", "HIGH", "MEDIUM", "LOW"] : List String) := by
  unfold tryLegacySevAt at h
  split at h
  · obtain ⟨pat, hpat, hf⟩ := List.exists_of_findSome?_eq_some h
    split at hf
    · cases hf
      fin_cases hpat <;> decide
    · cases hf
  · cases h

/-- The legacy severity scan only returns the four uppercased alternation
members. -/
theorem scanLegacySev_mem (prev : Option Char) (s : List Char)
    (tok : List Char) (h : scanLegacySev prev s = some tok) :
    String.mk tok ∈ (["CRITICAL", "HIGH", "MEDIUM", "LOW"] : List String) := by
  induction s generalizing prev with
  | nil => simp [scanLegacySev] at h
  | cons c t ih =>
    rw [scanLegacySev] at h
    cases htry : tryLegacySevAt prev (c :: t) with
    | none =>
      rw [htry] at h
      exact ih _ h
    | some r =>
      rw [htry] at h
      cases h
      exact tryLegacySevAt_mem _ _ _ htry

/-- The invariant the legacy line loop maintains on every finding: the
line is at least the offset, and the severity is one of the four legacy
alternation members. -/
def legacyInv (off : Int) (f : Issue) : Prop :=
  off ≤ f.line ∧
    f.severity ∈ (["CRITICAL", "HIGH", "MEDIUM", "LOW"] : List String)

/-- One legacy loop step preserves `legacyInv` on both the flushed issues
and the in-progress issue. -/
theorem legacyStep_inv (off : Int) (issues : List Issue) (cur : Option Issue)
    (rawLine : String)
    (h1 : ∀ f ∈ issues, legacyInv off f)
    (h2 : ∀ f, cur = some f → legacyInv off f) :
    (∀ f ∈ (legacyStep off (issues, cur) rawLine).1, legacyInv off f) ∧
    (∀ f, (legacyStep off (issues, cur) rawLine).2 = some f →
      legacyInv off f) := by
  cases hsev : scanLegacySev none (pyStrip rawLine.data) with
  | none =>
    refine ⟨?_, ?_⟩
    · intro f hf
      simp only [legacyStep, hsev] at hf
      exact h1 f hf
    · intro f hf
      cases cur with
      | none =>
        cases hln : scanLineSpace (pyStrip rawLine.data) <;>
          simp only [legacyStep, hsev, hln] at hf <;>
          exact Option.noConfusion hf
      | some c =>
        have hc := h2 c rfl
        cases hln : scanLineSpace (pyStrip rawLine.data) with
        | none =>
          simp only [legacyStep, hsev, hln, Option.isNone_none,
            Bool.and_true] at hf
          split at hf
          · split at hf <;> (cases hf; exact ⟨hc.1, hc.2⟩)
          · cases hf
            exact hc
        | some n =>
          simp only [legacyStep, hsev, hln, Option.isNone_none,
            Bool.and_true] at hf
          split at hf
          · split at hf <;>
              (cases hf;
               exact ⟨le_add_of_nonneg_left (Int.natCast_nonneg _), hc.2⟩)
          · cases hf
            exact ⟨le_add_of_nonneg_left (Int.natCast_nonneg _), hc.2⟩
  | some tok =>
    have hsevmem : String.mk tok ∈
        (["CRITICAL", "HIGH", "MEDIUM", "LOW"] : List String) :=
      scanLegacySev_mem _ _ _ hsev
    refine ⟨?_, ?_⟩
    · intro f hf
      cases cur with
      | none =>
        simp only [legacyStep, hsev] at hf
        exact h1 f hf
      | some c =>
        simp only [legacyStep, hsev] at hf
        rcases List.mem_append.1 hf with h | h
        · exact h1 f h
        · rw [List.mem_singleton] at h
          subst h
          exact h2 f rfl
    · intro f hf
      cases hln : scanLineSpace (pyStrip rawLine.data) <;>
        simp only [legacyStep, hsev, hln, Option.isNone_some,
          Bool.and_false] at hf <;>
        · split at hf
          next hcond => simp at hcond
          next =>
            cases hf
            exact ⟨le_add_of_nonneg_left (Int.natCast_nonneg _), hsevmem⟩

/-- The legacy loop maintains `legacyInv` over any line list. -/
theorem legacy_fold_inv (off : Int) (lines : List String) :
    ∀ (issues : List Issue) (cur : Option Issue),
      (∀ f ∈ issues, legacyInv off f) →
      (∀ f, cur = some f → legacyInv off f) →
      (∀ f ∈ (lines.foldl (legacyStep off) (issues, cur)).1,
        legacyInv off f) ∧
      (∀ f, (lines.foldl (legacyStep off) (issues, cur)).2 = some f →
        legacyInv off f) := by
  induction lines with
  | nil => exact fun issues cur h1 h2 => ⟨h1, h2⟩
  | cons l ls ih =>
    intro issues cur h1 h2
    rw [List.foldl_cons]
    have hstep := legacyStep_inv off issues cur l h1 h2
    rcases hq : legacyStep off (issues, cur) l with ⟨is2, c2⟩
    rw [hq] at hstep
    exact ih is2 c2 hstep.1 hstep.2

/-- Every finding of the legacy parser satisfies `legacyInv`. -/
theorem parse_legacy_inv (response : String) (off : Int) :
    ∀ f ∈ parse_legacy_response response off, legacyInv off f := by
  intro f hf
  unfold parse_legacy_response at hf
  have h := legacy_fold_inv off (splitLines response) [] none
    (by intro f hf; cases hf) (by intro f hf; cases hf)
  rcases hq : (splitLines response).foldl (legacyStep off) ([], none)
    with ⟨is2, c2⟩
  rw [hq] at h hf
  cases c2 with
  | none => exact h.1 f hf
  | some c =>
    simp only [] at hf
    rcases List.mem_append.1 hf with h' | h'
    · exact h.1 f h'
    · rw [List.mem_singleton] at h'
      subst h'
      exact h.2 f rfl

/-! ## Claim C1 -/

/-- C1 (amended): with a chunk starting-line offset ≥ 1 every parsed
finding's line is ≥ 1; and a structured block's absolute line is the
chunk-relative line extracted from the block (default 1) *plus the
offset* — the starting line is added as-is rather than start − 1. -/
theorem parse_line_ge_one (response : String) (off : Int) (hoff : 1 ≤ off) :
    (∀ f ∈ parse_model_response response off, 1 ≤ f.line) ∧
    (∀ (block : List Char) (f : Issue),
      parse_issue_block block off = some f →
      f.line = (((scanLineColon block).getD 1 : Nat) : Int) + off) := by
  refine ⟨?_, fun block f h => parse_issue_block_line block off f h⟩
  intro f hf
  unfold parse_model_response at hf
  split at hf
  · cases hf
  · split at hf
    · have hleg := (parse_legacy_inv response off f hf).1
      omega
    · rcases List.mem_filterMap.1 hf with ⟨b, _, hsome⟩
      split at hsome
      · cases hsome
      · have hline := parse_issue_block_line b off f hsome
        have hk : (0 : Int) ≤ (((scanLineColon b).getD 1 : Nat) : Int) :=
          Int.natCast_nonneg _
        omega

/-- C1 witness: the block `SEVERITY: LOW\nISSUE: y` parsed at offset 5
yields the finding below, whose line 6 = 1 + 5 is ≥ 1. -/
theorem parse_line_ge_one_witness :
    1 ≤ ({ type := "general", severity := "LOW", line := 6,
           description := "y", suggestion := "No solution provided",
           impact := "Unknown impact" } : Issue).line :=
  (parse_line_ge_one "SEVERITY: LOW\nISSUE: y" 5 (by decide)).1 _ (by decide)

/-! ## Claim C2 -/

/-- C2 (amended): the parser discards a structured block only when the
block contains no severity token at all; it does not validate the token
against the five-severity vocabulary (counterexample: "BANANA" is
accepted).  The legacy parser's severities always lie in
{CRITICAL, HIGH, MEDIUM, LOW} — it can never produce INFO, nor any other
token. -/
theorem parse_severity_vocab (response : String) (off : Int) :
    (∀ f ∈ parse_legacy_response response off,
      f.severity ∈ (["CRITICAL", "HIGH", "MEDIUM", "LOW"] : List String)) ∧
    (∀ block : List Char, scanSeverity block = none →
      parse_issue_block block off = none) :=
  ⟨fun f hf => (parse_legacy_inv response off f hf).2,
   fun block h => parse_issue_block_discard block off h⟩

/-- C2 witness: the legacy parse of `HIGH problem` produces severity
"HIGH", a member of the four-value legacy vocabulary. -/
theorem parse_severity_vocab_witness :
    ({ type := "general", severity := "HIGH", line := 1,
       description := "HIGH problem", suggestion := "",
       impact := "" } : Issue).severity ∈
      (["CRITICAL", "HIGH", "MEDIUM", "LOW"] : List String) :=
  (parse_severity_vocab "HIGH problem" 0).1 _ (by decide)

end MetaRefine

